import Mathlib

/-!
Verification of the pet-adoption backend's lifecycle and registration engines.

The definitions below are a shallow embedding of the JavaScript source:

* `preSave`, `updateStatus`, `scheduleVisit`, `completeVisit`, `processPayment`
  embed the Mongoose `adoptionSchema` middleware and instance methods of the
  Adoption model (src/unnamed/part_004).  Mongoose's `isModified('status')`
  is embedded by passing the status value the document had when it was loaded
  (`loadedStatus`) and comparing it with the current one; subdocument `date`
  defaults (`Date.now`) are embedded by an explicit `now` argument.
* `activitySave`, `addParticipant`, `removeParticipant` embed the Activity
  model's pre-save capacity validation and instance methods
  (src/models/Activity.js).  The pre-save hook's date validation and deadline
  defaulting act on fields that no claim mentions and are outside this model.
* `submitApplication` embeds the adoption-submission route handler
  (the `router.post('/')` adoptions handler bundled in
  src/middleware/errorHandler.js, lines 311-348, and the identical check in
  src/routes/pets.js lines 377-420): pet lookup, availability check, the
  duplicate query, and `Adoption.create`.  The duplicate filter's top-level
  `pet`/`adopter` paths are resolved against the part_004 document shape by
  `adoptionPath` (the schema nests them under `application.*`, so they
  resolve to nothing), and `adoptionCreate` embeds Mongoose validation of
  the schema's `required` paths, which runs before any `pre('save')` hook
  and rejects the route's flat payload.

Monetary amounts and capacity counters are JavaScript numbers used only with
`+`, `-` and comparisons here, embedded as `Int`; timestamps and identifiers
are embedded as `Nat`.
-/

namespace PetAdoption

/-- One entry of `timeline[]`: `{status, date, notes, updatedBy}`.
`notes`/`updatedBy` are `none` when the pushed object omits them. -/
structure TimelineEntry where
  status : String
  date : Nat
  notes : Option String
  updatedBy : Option Nat
deriving Repr, DecidableEq

/-- One entry of `fees.additional[]`: `{description, amount}`. -/
structure AdditionalFee where
  description : String
  amount : Int
deriving Repr, DecidableEq

/-- The `fees` subdocument of an adoption application. -/
structure Fees where
  adoption : Int
  additional : List AdditionalFee
  total : Int
  paid : Int
  paymentStatus : String
  paymentMethod : Option String
  transactionId : Option String
deriving Repr, DecidableEq

/-- One entry of `visits[]`; `id` embeds the subdocument `_id`. -/
structure Visit where
  id : Nat
  type : String
  scheduledDate : Nat
  status : String
  notes : Option String
  outcome : Option String
  completedAt : Option Nat
deriving Repr, DecidableEq

/-- An adoption application document (the fields the claims are about). -/
structure Adoption where
  pet : Nat
  applicant : Nat
  status : String
  visits : List Visit
  timeline : List TimelineEntry
  fees : Fees
deriving Repr, DecidableEq

/-- `fees.adoption + fees.additional.reduce((sum, fee) => sum + fee.amount, 0)`. -/
def feesTotal (f : Fees) : Int :=
  f.adoption + (f.additional.map (fun fee => fee.amount)).sum

/-- The `adoptionSchema.pre('save')` middleware (part_004 lines 340-366):
recompute `fees.total`, update `fees.paymentStatus` (left unchanged when
`paid ≤ 0 < total - paid`), and push a `{status, date}` timeline entry when
the status was modified since the document was loaded. -/
def preSave (loadedStatus : String) (now : Nat) (a : Adoption) : Adoption :=
  let total := feesTotal a.fees
  let ps :=
    if a.fees.paid ≥ total then "paid"
    else if a.fees.paid > 0 then "partial"
    else a.fees.paymentStatus
  let a' := { a with fees := { a.fees with total := total, paymentStatus := ps } }
  if a'.status = loadedStatus then a'
  else { a' with timeline := a'.timeline ++ [⟨a'.status, now, none, none⟩] }

/-- `adoptionSchema.methods.updateStatus` (part_004 lines 430-439): set the
status, push a `{status, notes, updatedBy}` timeline entry, save. -/
def updateStatus (a : Adoption) (newStatus : String) (notes : String)
    (updatedBy : Option Nat) (now : Nat) : Adoption :=
  preSave a.status now
    { a with
        status := newStatus,
        timeline := a.timeline ++ [⟨newStatus, now, some notes, updatedBy⟩] }

/-- `adoptionSchema.methods.scheduleVisit` (part_004 lines 441-448): push the
visit with status forced to `scheduled`, save. -/
def scheduleVisit (a : Adoption) (v : Visit) (now : Nat) : Adoption :=
  preSave a.status now
    { a with visits := a.visits ++ [{ v with status := "scheduled" }] }

/-- Replaces the first element satisfying `p` by its image under `f`
(embeds in-place mutation of the subdocument returned by a Mongoose
first-match lookup such as `visits.id(visitId)`). -/
def updateFirst {α : Type} (p : α → Bool) (f : α → α) : List α → List α
  | [] => []
  | x :: xs => if p x then f x :: xs else x :: updateFirst p f xs

/-- `adoptionSchema.methods.completeVisit` (part_004 lines 450-469): look up
the visit by id (`throw new Error('Visit not found')` when absent), mark it
completed with the outcome and notes, advance the status only when a
meet-and-greet or home-visit was approved, save. -/
def completeVisit (a : Adoption) (visitId : Nat) (outcome : String)
    (notes : String) (now : Nat) : Except String Adoption :=
  match a.visits.find? (fun w => w.id = visitId) with
  | none => .error "Visit not found"
  | some v =>
    let visits := updateFirst (fun w => w.id = visitId)
      (fun w => { w with
          status := "completed", outcome := some outcome,
          notes := some notes, completedAt := some now }) a.visits
    let newStatus :=
      if v.type = "meet-and-greet" ∧ outcome = "approved" then "meet-completed"
      else if v.type = "home-visit" ∧ outcome = "approved" then "home-visit-completed"
      else a.status
    .ok (preSave a.status now { a with visits := visits, status := newStatus })

/-- `adoptionSchema.methods.processPayment` (part_004 lines 481-497): add the
amount to `fees.paid`, record method and transaction id, set the payment
status by comparing with the stored total (auto-advancing
`adoption-approved` to `adoption-completed` when paid in full), save. -/
def processPayment (a : Adoption) (amount : Int) (method : String)
    (transactionId : String) (now : Nat) : Adoption :=
  let fees1 := { a.fees with
      paid := a.fees.paid + amount,
      paymentMethod := some method,
      transactionId := some transactionId }
  if fees1.paid ≥ fees1.total then
    preSave a.status now
      { a with
          fees := { fees1 with paymentStatus := "paid" },
          status :=
            if a.status = "adoption-approved" then "adoption-completed"
            else a.status }
  else
    preSave a.status now
      { a with fees := { fees1 with paymentStatus := "partial" } }

/-- An engine operation on one adoption application. -/
inductive AdoptionOp where
  | update (newStatus notes : String) (updatedBy : Option Nat)
  | complete (visitId : Nat) (outcome notes : String)
  | pay (amount : Int) (method transactionId : String)
  | schedule (v : Visit)
deriving Repr

/-- Dispatch one engine operation; operations that cannot throw are `.ok`. -/
def applyOp (now : Nat) (a : Adoption) : AdoptionOp → Except String Adoption
  | .update ns notes u => .ok (updateStatus a ns notes u now)
  | .complete vid outcome notes => completeVisit a vid outcome notes now
  | .pay amount m t => .ok (processPayment a amount m t now)
  | .schedule v => .ok (scheduleVisit a v now)

/-- Run a sequence of operations; a thrown error leaves the document
unsaved, hence unchanged. -/
def runOps (now : Nat) : List AdoptionOp → Adoption → Adoption
  | [], a => a
  | op :: ops, a =>
    runOps now ops
      (match applyOp now a op with
        | .ok b => b
        | .error _ => a)

/-- `fees.total` agrees with its derivation from the fee components. -/
def feesDerived (a : Adoption) : Prop := a.fees.total = feesTotal a.fees

/-- The active statuses of `adoptionSchema.virtual('isActive')`
(part_004 lines 381-388). -/
def activeStatuses : List String :=
  ["submitted", "under-review", "approved", "meet-scheduled",
   "meet-completed", "home-visit-scheduled", "home-visit-completed",
   "adoption-approved"]

/-- `activeStatuses.includes(status)`. -/
def isActive (s : String) : Bool := activeStatuses.contains s

/-- One entry of `participants[]`: `{user, registeredAt, status}`. -/
structure Participant where
  user : Nat
  registeredAt : Nat
  status : String
deriving Repr, DecidableEq

/-- The `capacity` subdocument of an activity. -/
structure Capacity where
  max : Int
  current : Int
  waitlist : Int
deriving Repr, DecidableEq

/-- An activity document (the fields the claims are about). -/
structure Activity where
  capacity : Capacity
  participants : List Participant
deriving Repr, DecidableEq

/-- The capacity branch of `activitySchema.pre('save')` (Activity.js lines
277-294): reject the save when `capacity.current > capacity.max`.  The
hook's date validation and deadline defaulting concern fields outside this
model. -/
def activitySave (a : Activity) : Except String Activity :=
  if a.capacity.current > a.capacity.max then
    .error "Current registrations cannot exceed maximum capacity"
  else .ok a

/-- `activitySchema.methods.addParticipant` (Activity.js lines 330-344):
when the activity is full a `registered` request is downgraded to
`waitlisted` (bumping `capacity.waitlist`), otherwise a `registered`
request bumps `capacity.current`; the participant is pushed and the
document saved.  The route calls it without the optional status argument,
so `status = "registered"`. -/
def addParticipant (a : Activity) (userId : Nat) (now : Nat)
    (status : String) : Except String Activity :=
  if a.capacity.current ≥ a.capacity.max ∧ status = "registered" then
    activitySave
      { a with
          capacity := { a.capacity with waitlist := a.capacity.waitlist + 1 },
          participants := a.participants ++ [⟨userId, now, "waitlisted"⟩] }
  else if status = "registered" then
    activitySave
      { a with
          capacity := { a.capacity with current := a.capacity.current + 1 },
          participants := a.participants ++ [⟨userId, now, status⟩] }
  else
    activitySave
      { a with participants := a.participants ++ [⟨userId, now, status⟩] }

/-- `activitySchema.methods.removeParticipant` (Activity.js lines 346-366):
`none` embeds the `return false` when the user has no participant entry;
otherwise, a `registered` leaver decrements `capacity.current` and the
first `waitlisted` entry in array order (if any) is promoted to
`registered` (current back up, waitlist down), a `waitlisted` leaver just
decrements `capacity.waitlist`; then `participants.pull({user: userId})`
removes the user's entries and the document is saved. -/
def removeParticipant (a : Activity) (userId : Nat) :
    Option (Except String Activity) :=
  match a.participants.find? (fun q => q.user = userId) with
  | none => none
  | some p =>
    let a1 :=
      if p.status = "registered" then
        let cap1 := { a.capacity with current := a.capacity.current - 1 }
        if a.participants.any (fun q => q.status = "waitlisted") then
          { a with
              capacity := { cap1 with
                current := cap1.current + 1,
                waitlist := cap1.waitlist - 1 },
              participants := updateFirst (fun q => q.status = "waitlisted")
                (fun q => { q with status := "registered" }) a.participants }
        else { a with capacity := cap1 }
      else if p.status = "waitlisted" then
        { a with capacity := { a.capacity with waitlist := a.capacity.waitlist - 1 } }
      else a
    some (activitySave
      { a1 with participants := a1.participants.filter (fun q => q.user ≠ userId) })

/-- Number of participants with the given status. -/
def countStatus (s : String) (l : List Participant) : Nat :=
  (l.filter (fun p => p.status = s)).length

/-- The capacity invariant of the Activity data model: the counters agree
with the participant list and `current ≤ max`. -/
def activityInv (a : Activity) : Prop :=
  a.capacity.current = (countStatus "registered" a.participants : Int) ∧
  a.capacity.waitlist = (countStatus "waitlisted" a.participants : Int) ∧
  a.capacity.current ≤ a.capacity.max

/-- A pet document as read by the submission routes: `pet.adoption.status`
and the `pet.shelter` reference. -/
structure PetDoc where
  id : Nat
  adoptionStatus : String
  shelter : Nat
deriving Repr, DecidableEq

/-- An adoption application document as the part_004 schema stores it: the
pet and applicant references are nested under `application.*`; the schema
defines no top-level `pet` or `adopter` path. -/
structure AdoptionDoc where
  applicationPet : Nat
  applicationApplicant : Nat
  status : String
deriving Repr, DecidableEq

/-- Resolution of a query path against a stored part_004 document (unknown
filter paths are kept and then match no document): only `application.pet`
and `application.applicant` resolve; in particular the submission route's
filter paths `pet` and `adopter` resolve to nothing. -/
def adoptionPath (d : AdoptionDoc) (path : String) : Option Nat :=
  if path = "application.pet" then some d.applicationPet
  else if path = "application.applicant" then some d.applicationApplicant
  else none

/-- A payload for `Adoption.create`, covering the fields the submission
routes pass — top-level `pet`, `adopter`, `shelter` and the
`adoptionDetails` blob, none of which is a part_004 schema path — and every
path the part_004 schema marks `required`. -/
structure AdoptionCreatePayload where
  pet : Option Nat
  adopter : Option Nat
  shelter : Option Nat
  adoptionDetails : Option String
  applicationId : Option String
  applicationApplicant : Option Nat
  applicationPet : Option Nat
  applicationShelter : Option Nat
  motivation : Option String
  experienceLevel : Option String
  workSchedule : Option String
  activityLevel : Option String
  housingType : Option String
  ownership : Option String
  hasYard : Option Bool
  feesAdoption : Option Int
deriving Repr, DecidableEq

/-- The first path the part_004 schema marks `required` (in declaration
order) that is missing from a create payload, if any. -/
def requiredMissing (p : AdoptionCreatePayload) : Option String :=
  if p.applicationId.isNone then some "application.id"
  else if p.applicationApplicant.isNone then some "application.applicant"
  else if p.applicationPet.isNone then some "application.pet"
  else if p.applicationShelter.isNone then some "application.shelter"
  else if p.motivation.isNone then some "personalInfo.motivation"
  else if p.experienceLevel.isNone then some "personalInfo.experience.experienceLevel"
  else if p.workSchedule.isNone then some "personalInfo.lifestyle.workSchedule"
  else if p.activityLevel.isNone then some "personalInfo.lifestyle.activityLevel"
  else if p.housingType.isNone then some "housingInfo.type"
  else if p.ownership.isNone then some "housingInfo.ownership"
  else if p.hasYard.isNone then some "housingInfo.yard.hasYard"
  else if p.feesAdoption.isNone then some "fees.adoption"
  else none

/-- Outcome of the submission route handler: `validationError` embeds the
thrown Mongoose ValidationError reaching the error middleware. -/
inductive SubmitOutcome where
  | notFound
  | notAvailable
  | duplicate
  | validationError (path : String)
  | created (store : List AdoptionDoc)
deriving Repr, DecidableEq

/-- `Adoption.create`: Mongoose validation runs before any `pre('save')`
hook, so the hook's `application.id` generation cannot satisfy the
`required` check; a payload missing a required path throws a
`ValidationError` naming it, a complete payload stores the document with
the schema default status `submitted`. -/
def adoptionCreate (p : AdoptionCreatePayload) (store : List AdoptionDoc) :
    SubmitOutcome :=
  match requiredMissing p with
  | some path => .validationError path
  | none =>
    .created (store ++
      [⟨p.applicationPet.getD 0, p.applicationApplicant.getD 0, "submitted"⟩])

/-- The payload the submission routes actually build
(errorHandler.js lines 342-347, pets.js lines 409-420): `pet`, `adopter`,
`shelter`, `adoptionDetails`, and nothing else — no schema-required path is
supplied. -/
def routePayload (petId userId shelterId : Nat) : AdoptionCreatePayload :=
  { pet := some petId, adopter := some userId, shelter := some shelterId,
    adoptionDetails := some "",
    applicationId := none, applicationApplicant := none,
    applicationPet := none, applicationShelter := none,
    motivation := none, experienceLevel := none, workSchedule := none,
    activityLevel := none, housingType := none, ownership := none,
    hasYard := none, feesAdoption := none }

/-- The adoption-submission route handler (errorHandler.js lines 311-348,
same logic in pets.js lines 377-420): 404 when the pet id does not resolve,
reject when the pet is not `available`, reject as a duplicate when a stored
document matches the filter `{pet, adopter, status ∈ {pending, approved}}`
— whose `pet`/`adopter` paths resolve against the model via `adoptionPath` —
and otherwise hand the route's flat payload to `Adoption.create`. -/
def submitApplication (pets : List PetDoc) (adoptions : List AdoptionDoc)
    (petId userId : Nat) : SubmitOutcome :=
  match pets.find? (fun q => q.id = petId) with
  | none => .notFound
  | some pt =>
    if pt.adoptionStatus ≠ "available" then .notAvailable
    else if adoptions.any (fun d =>
        adoptionPath d "pet" = some petId ∧
        adoptionPath d "adopter" = some userId ∧
        (d.status = "pending" ∨ d.status = "approved")) then .duplicate
    else adoptionCreate (routePayload petId userId pt.shelter) adoptions

/-! Sample documents used by witnesses and counterexamples. -/

/-- A scheduled meet-and-greet visit. -/
def sampleVisit : Visit := ⟨1, "meet-and-greet", 10, "scheduled", none, none, none⟩

/-- A freshly submitted application with a scheduled meet-and-greet visit,
adoption fee 200, nothing paid. -/
def sampleApp : Adoption :=
  { pet := 1, applicant := 2, status := "submitted",
    visits := [sampleVisit],
    timeline := [⟨"submitted", 0, none, none⟩],
    fees := ⟨200, [], 200, 0, "pending", none, none⟩ }

/-- `sampleApp` at the point where its meet-and-greet is pending completion. -/
def visitApp : Adoption := { sampleApp with status := "meet-scheduled" }

/-- An activity with one free slot, one registered and one waitlisted
participant (a state reachable by two registrations at `max = 1`). -/
def sampleActivity : Activity :=
  { capacity := { max := 1, current := 1, waitlist := 1 },
    participants := [⟨10, 1, "registered"⟩, ⟨11, 2, "waitlisted"⟩] }

/-- An available pet belonging to shelter 5. -/
def samplePet : PetDoc := ⟨1, "available", 5⟩

/-- An existing application of user 2 for pet 1 stored in the part_004
shape, in the active status `submitted`. -/
def existingDoc : AdoptionDoc := ⟨1, 2, "submitted"⟩

/-! Helper lemmas about the save middleware. -/

/-- Saving does not change the status. -/
theorem preSave_status (s : String) (now : Nat) (a : Adoption) :
    (preSave s now a).status = a.status := by
  simp only [preSave]
  split <;> rfl

/-- Saving does not change the visits. -/
theorem preSave_visits (s : String) (now : Nat) (a : Adoption) :
    (preSave s now a).visits = a.visits := by
  simp only [preSave]
  split <;> rfl

/-- Saving only ever appends to the timeline. -/
theorem preSave_timeline_le (s : String) (now : Nat) (a b : Adoption)
    (h : a.timeline = b.timeline) :
    a.timeline.length ≤ (preSave s now b).timeline.length := by
  rw [h]
  simp only [preSave]
  split
  · exact Nat.le_refl _
  · simp

/-- Saving recomputes `fees.total` from the fee components. -/
theorem preSave_feesDerived (s : String) (now : Nat) (a : Adoption) :
    feesDerived (preSave s now a) := by
  simp only [preSave, feesDerived, feesTotal]
  split <;> rfl

/-- Saving does not change the amount paid. -/
theorem preSave_paid (s : String) (now : Nat) (a : Adoption) :
    (preSave s now a).fees.paid = a.fees.paid := by
  simp only [preSave]
  split <;> rfl

/-- The payment status after saving, as the hook computes it. -/
theorem preSave_paymentStatus (s : String) (now : Nat) (a : Adoption) :
    (preSave s now a).fees.paymentStatus =
      (if a.fees.paid ≥ feesTotal a.fees then "paid"
       else if a.fees.paid > 0 then "partial" else a.fees.paymentStatus) := by
  simp only [preSave]
  split <;> rfl

/-- Any single engine operation only ever appends to the timeline. -/
theorem applyOp_timeline_le (now : Nat) (a : Adoption) (op : AdoptionOp)
    (b : Adoption) (h : applyOp now a op = .ok b) :
    a.timeline.length ≤ b.timeline.length := by
  cases op with
  | update ns notes u =>
    cases h
    simp only [updateStatus]
    refine Nat.le_trans ?_ (preSave_timeline_le _ _ _ _ rfl)
    simp
  | complete vid outcome notes =>
    simp only [applyOp, completeVisit] at h
    cases hfind : a.visits.find? (fun w => w.id = vid) with
    | none => rw [hfind] at h; cases h
    | some v =>
      rw [hfind] at h
      cases h
      exact preSave_timeline_le _ _ a _ rfl
  | pay amount m t =>
    cases h
    simp only [processPayment]
    split <;> exact preSave_timeline_le _ _ a _ rfl
  | schedule v =>
    cases h
    simp only [scheduleVisit]
    exact preSave_timeline_le _ _ a _ rfl

/-- Over any operation sequence the timeline length never decreases. -/
theorem runOps_timeline_le (now : Nat) (ops : List AdoptionOp) (a : Adoption) :
    a.timeline.length ≤ (runOps now ops a).timeline.length := by
  induction ops generalizing a with
  | nil => exact Nat.le_refl _
  | cons op ops ih =>
    simp only [runOps]
    cases h : applyOp now a op with
    | ok b => exact Nat.le_trans (applyOp_timeline_le now a op b h) (ih b)
    | error e => exact ih a

/-! C1. -/

/-- C1 counterexample: the spec says a `transitionStatus` from `submitted`
directly to `adoption-completed` fails with `InvalidTransition` leaving
status and timeline unchanged; on `sampleApp` (status `submitted`) the
code's `updateStatus` instead succeeds, sets the status to
`adoption-completed` and grows the timeline from 1 to 3 entries. -/
theorem updateStatus_skips_graph_check :
    sampleApp.status = "submitted" ∧
    (updateStatus sampleApp "adoption-completed" "" none 5).status
      = "adoption-completed" ∧
    (updateStatus sampleApp "adoption-completed" "" none 5).timeline.length = 3 := by
  refine ⟨rfl, rfl, ?_⟩
  decide

/-- C1 amended: `updateStatus` performs no reachability check at all — for
every application and every requested `newStatus` (reachable or not) it
succeeds, the resulting status is `newStatus`, and the timeline strictly
grows. -/
theorem updateStatus_unconditional (a : Adoption) (ns notes : String)
    (u : Option Nat) (now : Nat) :
    (updateStatus a ns notes u now).status = ns ∧
    a.timeline.length < (updateStatus a ns notes u now).timeline.length := by
  constructor
  · rw [updateStatus, preSave_status]
  · simp only [updateStatus]
    refine Nat.lt_of_lt_of_le ?_ (preSave_timeline_le _ _ _ _ rfl)
    simp

/-! C10. -/

/-- Forgets who recorded a timeline entry. -/
def eraseActor (e : TimelineEntry) : TimelineEntry := { e with updatedBy := none }

/-- C10: the engine-level status update applies any requested transition for
any actor: the resulting status (always the requested one), fees and visits
are identical for two arbitrary actors, and the timelines agree except for
the `updatedBy` field — the actor argument influences nothing else, and no
role or authorization check exists in `updateStatus`. -/
theorem updateStatus_actor_independent (a : Adoption) (ns notes : String)
    (u1 u2 : Option Nat) (now : Nat) :
    (updateStatus a ns notes u1 now).status = ns ∧
    (updateStatus a ns notes u2 now).status = ns ∧
    (updateStatus a ns notes u1 now).fees = (updateStatus a ns notes u2 now).fees ∧
    (updateStatus a ns notes u1 now).visits = (updateStatus a ns notes u2 now).visits ∧
    (updateStatus a ns notes u1 now).timeline.map eraseActor
      = (updateStatus a ns notes u2 now).timeline.map eraseActor := by
  refine ⟨?_, ?_, ?_, ?_, ?_⟩ <;>
    simp only [updateStatus, preSave] <;> split <;> simp_all [eraseActor]

/-! C2. -/

/-- C2 counterexample: the spec says each successful transition appends
exactly one timeline entry; on `sampleApp` (timeline of length 1) a single
successful `updateStatus` to `under-review` yields a timeline of length 3 —
the method pushes one entry `{status, notes, updatedBy}` and the pre-save
hook pushes a second `{status, date}` entry. -/
theorem updateStatus_appends_two_entries :
    sampleApp.timeline.length = 1 ∧
    (updateStatus sampleApp "under-review" "looks good" (some 7) 5).timeline.length
      = 3 := by
  constructor
  · rfl
  · decide

/-- C2 amended: a successful `updateStatus` to a status different from the
current one appends exactly two timeline entries (the method's entry with
notes and actor, then the hook's bare `{status, date}` entry), not one; and
over any sequence of engine operations the timeline length never
decreases. -/
theorem timeline_growth (a : Adoption) (ns notes : String) (u : Option Nat)
    (now : Nat) (ops : List AdoptionOp) (h : ns ≠ a.status) :
    (updateStatus a ns notes u now).timeline.length = a.timeline.length + 2 ∧
    a.timeline.length ≤ (runOps now ops a).timeline.length := by
  refine ⟨?_, runOps_timeline_le now ops a⟩
  simp only [updateStatus, preSave]
  split
  · simp_all
  · simp

/-- C2 witness for `timeline_growth` at `sampleApp`, transitioning to
`under-review` with an empty operation sequence. -/
theorem timeline_growth_witness :
    ("under-review" : String) ≠ sampleApp.status ∧
    ((updateStatus sampleApp "under-review" "n" (some 7) 5).timeline.length
        = sampleApp.timeline.length + 2 ∧
      sampleApp.timeline.length ≤ (runOps 5 [] sampleApp).timeline.length) :=
  ⟨by decide, timeline_growth sampleApp "under-review" "n" (some 7) 5 [] (by decide)⟩

/-! C7. -/

/-- C7: after every persisted mutation by any engine operation, `fees.total`
equals `fees.adoption` plus the sum of the additional fee amounts — every
operation saves the document and the pre-save hook recomputes the total
from its inputs. -/
theorem applyOp_fees_derived (now : Nat) (a : Adoption) (op : AdoptionOp)
    (b : Adoption) (h : applyOp now a op = .ok b) : feesDerived b := by
  cases op with
  | update ns notes u =>
    cases h
    exact preSave_feesDerived _ _ _
  | complete vid outcome notes =>
    simp only [applyOp, completeVisit] at h
    cases hfind : a.visits.find? (fun w => w.id = vid) with
    | none => rw [hfind] at h; cases h
    | some v =>
      rw [hfind] at h
      cases h
      exact preSave_feesDerived _ _ _
  | pay amount m t =>
    cases h
    simp only [processPayment]
    split <;> exact preSave_feesDerived _ _ _
  | schedule v =>
    cases h
    exact preSave_feesDerived _ _ _

/-- C7 witness for `applyOp_fees_derived`: a concrete payment of 50 on
`sampleApp`. -/
theorem applyOp_fees_derived_witness :
    applyOp 3 sampleApp (.pay 50 "card" "t") = .ok (processPayment sampleApp 50 "card" "t" 3) ∧
    feesDerived (processPayment sampleApp 50 "card" "t" 3) :=
  ⟨rfl, applyOp_fees_derived 3 sampleApp (.pay 50 "card" "t") _ rfl⟩

/-! C4. -/

/-- C4 counterexample: the spec says `recordPayment` fails with
`ValidationError` when the amount is not positive and that
`paid ≤ 0 < total` means payment status `pending`; on `sampleApp`
(total 200, nothing paid) the code's `processPayment` with amount −50
instead succeeds, drives `fees.paid` to −50 and sets the payment status to
`partial`. -/
theorem processPayment_accepts_nonpositive :
    (processPayment sampleApp (-50) "card" "txn1" 5).fees.paid = -50 ∧
    (processPayment sampleApp (-50) "card" "txn1" 5).fees.paymentStatus = "partial" ∧
    (processPayment sampleApp (-50) "card" "txn1" 5).fees.total = 200 := by
  decide

/-- C4 amended: `processPayment` validates nothing — for every amount
(positive or not) it adds the amount to `fees.paid`; when the new paid
amount reaches the total the payment status becomes `paid` and a status of
`adoption-approved` auto-advances to `adoption-completed`, otherwise the
payment status becomes `partial` (even when nothing positive was ever
paid); the referenced pet is never touched (no pet-adopted side effect
exists in the method, whose only document is the application — its visits,
shown unchanged, stand in for all non-fee fields). -/
theorem processPayment_spec (a : Adoption) (amount : Int) (m t : String)
    (now : Nat) (h : feesDerived a) :
    (processPayment a amount m t now).fees.paid = a.fees.paid + amount ∧
    (a.fees.paid + amount ≥ a.fees.total →
      (processPayment a amount m t now).fees.paymentStatus = "paid" ∧
      (processPayment a amount m t now).status =
        (if a.status = "adoption-approved" then "adoption-completed" else a.status)) ∧
    (a.fees.paid + amount < a.fees.total →
      (processPayment a amount m t now).fees.paymentStatus = "partial" ∧
      (processPayment a amount m t now).status = a.status) ∧
    (processPayment a amount m t now).visits = a.visits := by
  have hT : feesTotal a.fees = a.fees.total := h.symm
  refine ⟨?_, ?_, ?_, ?_⟩
  · simp only [processPayment]
    split <;> rw [preSave_paid]
  · intro hge
    simp only [processPayment]
    split
    · rw [preSave_paymentStatus, preSave_status]
      refine ⟨?_, rfl⟩
      have : feesTotal { a.fees with
          paid := a.fees.paid + amount, paymentStatus := "paid",
          paymentMethod := some m, transactionId := some t } = a.fees.total := hT
      simp [this, hge]
    · rename_i hc
      exact absurd hge hc
  · intro hlt
    simp only [processPayment]
    split
    · rename_i hc
      exact absurd hc (not_le.mpr hlt)
    · rw [preSave_paymentStatus, preSave_status]
      refine ⟨?_, rfl⟩
      have : feesTotal { a.fees with
          paid := a.fees.paid + amount, paymentStatus := "partial",
          paymentMethod := some m, transactionId := some t } = a.fees.total := hT
      rw [this]
      simp [not_le.mpr hlt, ite_self]
  · simp only [processPayment]
    split <;> rw [preSave_visits]

/-- The sample application at `adoption-approved` (Scenario D). -/
def approvedApp : Adoption := { sampleApp with status := "adoption-approved" }

/-- C4 witness for `processPayment_spec`: paying the full 200 on
`approvedApp` (Scenario D at the engine level). -/
theorem processPayment_spec_witness :
    feesDerived approvedApp ∧
    ((processPayment approvedApp 200 "card" "txn1" 9).fees.paid
        = approvedApp.fees.paid + 200 ∧
      (approvedApp.fees.paid + 200 ≥ approvedApp.fees.total →
        (processPayment approvedApp 200 "card" "txn1" 9).fees.paymentStatus = "paid" ∧
        (processPayment approvedApp 200 "card" "txn1" 9).status =
          (if approvedApp.status = "adoption-approved" then "adoption-completed"
           else approvedApp.status)) ∧
      (approvedApp.fees.paid + 200 < approvedApp.fees.total →
        (processPayment approvedApp 200 "card" "txn1" 9).fees.paymentStatus = "partial" ∧
        (processPayment approvedApp 200 "card" "txn1" 9).status = approvedApp.status) ∧
      (processPayment approvedApp 200 "card" "txn1" 9).visits = approvedApp.visits) :=
  ⟨by unfold feesDerived; decide, processPayment_spec approvedApp 200 "card" "txn1" 9 (by unfold feesDerived; decide)⟩

/-! C8. -/

/-- C8 counterexample: the spec says a `rejected` visit outcome advances the
application status to `rejected`; on `visitApp` (status `meet-scheduled`,
one scheduled meet-and-greet) the code's `completeVisit` with outcome
`rejected` succeeds but leaves the status at `meet-scheduled`. -/
theorem completeVisit_rejected_keeps_status :
    visitApp.status = "meet-scheduled" ∧
    (completeVisit visitApp 1 "rejected" "bad fit" 5).toOption.map Adoption.status
      = some "meet-scheduled" := by
  constructor
  · rfl
  · decide

/-- C8 amended: `completeVisit` fails with `Visit not found` when the visit
id is absent; otherwise it marks the first visit with that id `completed`
with the given outcome and notes, and advances the application status only
when the outcome is `approved` — to `meet-completed` for a meet-and-greet
and to `home-visit-completed` for a home visit; every other outcome
(including `rejected`) leaves the status unchanged. -/
theorem completeVisit_spec (a : Adoption) (vid : Nat) (outcome notes : String)
    (now : Nat) :
    (a.visits.find? (fun w => w.id = vid) = none →
      completeVisit a vid outcome notes now = .error "Visit not found") ∧
    (∀ v, a.visits.find? (fun w => w.id = vid) = some v →
      ∃ r, completeVisit a vid outcome notes now = .ok r ∧
        r.status =
          (if v.type = "meet-and-greet" ∧ outcome = "approved" then "meet-completed"
           else if v.type = "home-visit" ∧ outcome = "approved" then "home-visit-completed"
           else a.status) ∧
        r.visits = updateFirst (fun w => w.id = vid)
          (fun w => { w with
              status := "completed", outcome := some outcome,
              notes := some notes, completedAt := some now }) a.visits) := by
  constructor
  · intro h
    simp only [completeVisit, h]
  · intro v hv
    simp only [completeVisit, hv]
    exact ⟨_, rfl, by rw [preSave_status], by rw [preSave_visits]⟩

/-- C8 witness for `completeVisit_spec`: completing the meet-and-greet of
`visitApp` with outcome `approved`. -/
theorem completeVisit_spec_witness :
    visitApp.visits.find? (fun w => w.id = 1) = some sampleVisit ∧
    (∃ r, completeVisit visitApp 1 "approved" "ok" 5 = .ok r ∧
      r.status =
        (if sampleVisit.type = "meet-and-greet" ∧ ("approved" : String) = "approved"
         then "meet-completed"
         else if sampleVisit.type = "home-visit" ∧ ("approved" : String) = "approved"
         then "home-visit-completed"
         else visitApp.status) ∧
      r.visits = updateFirst (fun w => w.id = 1)
        (fun w => { w with
            status := "completed", outcome := some "approved",
            notes := some "ok", completedAt := some 5 }) visitApp.visits) :=
  ⟨by decide, (completeVisit_spec visitApp 1 "approved" "ok" 5).2 sampleVisit (by decide)⟩

/-! C3. -/

/-- C3 (code bug): the submission pipeline can neither detect a duplicate
nor create an application against the part_004 model.  At the failing input
— an available pet and an existing application of the same applicant for
that pet in the active status `submitted` — the route does not fail with
`Conflict` (`duplicate`): its filter's `pet`/`adopter` paths resolve to
nothing on stored documents, so it reaches `Adoption.create`, whose
validation throws a `ValidationError` for the first missing required path.
In general, for every store and every request the outcome is `notFound`,
`notAvailable`, or that `ValidationError` — `duplicate` and `created` are
unreachable, so the route never enforces (nor can violate) the
at-most-one-active invariant the spec states. -/
theorem submitApplication_validation_dead_end :
    isActive existingDoc.status = true ∧
    submitApplication [samplePet] [existingDoc] 1 2
      = .validationError "application.id" ∧
    ∀ (pets : List PetDoc) (adoptions : List AdoptionDoc) (petId userId : Nat),
      submitApplication pets adoptions petId userId = .notFound ∨
      submitApplication pets adoptions petId userId = .notAvailable ∨
      submitApplication pets adoptions petId userId
        = .validationError "application.id" := by
  refine ⟨by decide, by decide, ?_⟩
  intro pets adoptions petId userId
  unfold submitApplication
  cases hfind : pets.find? (fun q => q.id = petId) with
  | none => exact Or.inl rfl
  | some pt =>
    dsimp only
    by_cases hav : pt.adoptionStatus ≠ "available"
    · rw [if_pos hav]
      exact Or.inr (Or.inl rfl)
    · rw [if_neg hav]
      have hany : adoptions.any (fun d =>
          adoptionPath d "pet" = some petId ∧
          adoptionPath d "adopter" = some userId ∧
          (d.status = "pending" ∨ d.status = "approved")) = false := by
        rw [List.any_eq_false]
        intro d hd
        simp [adoptionPath]
      rw [if_neg (by rw [hany]; exact Bool.false_ne_true)]
      exact Or.inr (Or.inr rfl)

/-! Helper lemmas about participant lists. -/

/-- Appending one participant changes one status count. -/
theorem countStatus_append (s : String) (l : List Participant) (x : Participant) :
    countStatus s (l ++ [x])
      = countStatus s l + (if x.status = s then 1 else 0) := by
  simp only [countStatus, List.filter_append, List.length_append]
  split_ifs with h <;> simp [List.filter, h]

/-- Splitting a status count along membership of one user. -/
theorem countStatus_filter_user (s : String) (u : Nat) (l : List Participant) :
    countStatus s (l.filter (fun q => q.user ≠ u))
      + countStatus s (l.filter (fun q => q.user = u)) = countStatus s l := by
  induction l with
  | nil => rfl
  | cons x xs ih =>
    by_cases hx : x.user = u <;> by_cases hs : x.status = s <;>
      simp [countStatus, List.filter, hx, hs] at * <;> omega

/-- A participant with the counted status makes the count positive. -/
theorem countStatus_pos (s : String) (l : List Participant) (p : Participant)
    (hmem : p ∈ l) (hs : p.status = s) : 1 ≤ countStatus s l := by
  have hf : p ∈ l.filter (fun q => q.status = s) :=
    List.mem_filter.mpr ⟨hmem, by simp [hs]⟩
  have := List.length_pos.mpr (List.ne_nil_of_mem hf)
  simpa [countStatus] using this

/-- Promoting the first waitlisted participant moves one unit of count from
`waitlisted` to `registered`. -/
theorem countStatus_promote (l : List Participant)
    (hw : l.any (fun q => q.status = "waitlisted") = true) :
    countStatus "registered" (updateFirst (fun q => q.status = "waitlisted")
        (fun q => { q with status := "registered" }) l)
      = countStatus "registered" l + 1 ∧
    countStatus "waitlisted" (updateFirst (fun q => q.status = "waitlisted")
        (fun q => { q with status := "registered" }) l) + 1
      = countStatus "waitlisted" l := by
  induction l with
  | nil => cases hw
  | cons x xs ih =>
    by_cases hx : x.status = "waitlisted"
    · simp [updateFirst, countStatus, List.filter, hx]
    · have hw' : xs.any (fun q => q.status = "waitlisted") = true := by
        simpa [hx] using hw
      obtain ⟨ih1, ih2⟩ := ih hw'
      by_cases hr : x.status = "registered" <;>
        simp [updateFirst, countStatus, List.filter, hx, hr] at * <;> omega

/-- Promotion leaves the entries of a user with no waitlisted entry
untouched. -/
theorem promote_filter_user (u : Nat) (l : List Participant)
    (h : ∀ q ∈ l, q.status = "waitlisted" → q.user ≠ u) :
    (updateFirst (fun q => q.status = "waitlisted")
        (fun q => { q with status := "registered" }) l).filter (fun q => q.user = u)
      = l.filter (fun q => q.user = u) := by
  induction l with
  | nil => rfl
  | cons x xs ih =>
    by_cases hx : x.status = "waitlisted"
    · have hxu : x.user ≠ u := h x (List.mem_cons_self x xs) hx
      simp [updateFirst, List.filter, hx, hxu]
    · have ih' := ih (fun q hq => h q (List.mem_cons_of_mem x hq))
      by_cases hxu : x.user = u <;> simp [updateFirst, List.filter, hx, hxu, ih']

/-- With at most one entry for a user, the find-hit is that entry. -/
theorem filter_user_unique (u : Nat) (l : List Participant) (p : Participant)
    (hfind : l.find? (fun q => q.user = u) = some p)
    (hdup : (l.filter (fun q => q.user = u)).length ≤ 1) :
    l.filter (fun q => q.user = u) = [p] := by
  have hp := List.find?_some hfind
  have hmem := List.mem_of_find?_eq_some hfind
  have hin : p ∈ l.filter (fun q => q.user = u) := List.mem_filter.mpr ⟨hmem, hp⟩
  match hl : l.filter (fun q => q.user = u) with
  | [] => rw [hl] at hin; cases hin
  | [x] =>
    rw [hl] at hin
    simp only [List.mem_singleton] at hin
    rw [hin]
    exact hl
  | x :: y :: rest => rw [hl] at hdup; simp at hdup

/-- The first waitlisted entry of a chronologically ordered participant
list has the least `registeredAt` among the waitlisted entries. -/
theorem find?_first_min (l : List Participant) (w : Participant)
    (hsort : l.Pairwise (fun x y => x.registeredAt ≤ y.registeredAt))
    (hw : l.find? (fun q => q.status = "waitlisted") = some w) :
    ∀ q ∈ l, q.status = "waitlisted" → w.registeredAt ≤ q.registeredAt := by
  induction l with
  | nil => cases hw
  | cons x xs ih =>
    rw [List.pairwise_cons] at hsort
    obtain ⟨hx, hxs⟩ := hsort
    by_cases hxw : x.status = "waitlisted"
    · rw [List.find?_cons_of_pos _ (by simp [hxw])] at hw
      cases hw
      intro q hq hqw
      rcases List.mem_cons.mp hq with rfl | hq'
      · exact Nat.le_refl _
      · exact hx q hq'
    · rw [List.find?_cons_of_neg _ (by simp [hxw])] at hw
      intro q hq hqw
      rcases List.mem_cons.mp hq with rfl | hq'
      · exact absurd hqw hxw
      · exact ih hxs hw q hq' hqw

/-! C5. -/

/-- C5: `addParticipant` (as the register operation invokes it) never
rejects for capacity — below capacity it adds the user as `registered` and
bumps `capacity.current`, at or above capacity it adds the user as
`waitlisted` and bumps `capacity.waitlist`. -/
theorem addParticipant_spec (a : Activity) (userId now : Nat)
    (hmax : a.capacity.current ≤ a.capacity.max) :
    (a.capacity.current < a.capacity.max →
      ∃ r, addParticipant a userId now "registered" = .ok r ∧
        r.participants = a.participants ++ [⟨userId, now, "registered"⟩] ∧
        r.capacity.current = a.capacity.current + 1 ∧
        r.capacity.waitlist = a.capacity.waitlist ∧
        r.capacity.max = a.capacity.max) ∧
    (a.capacity.current ≥ a.capacity.max →
      ∃ r, addParticipant a userId now "registered" = .ok r ∧
        r.participants = a.participants ++ [⟨userId, now, "waitlisted"⟩] ∧
        r.capacity.current = a.capacity.current ∧
        r.capacity.waitlist = a.capacity.waitlist + 1 ∧
        r.capacity.max = a.capacity.max) := by
  constructor
  · intro hlt
    have h1 : ¬(a.capacity.current ≥ a.capacity.max ∧ ("registered" : String) = "registered") :=
      fun hc => absurd hc.1 (not_le.mpr hlt)
    refine ⟨{ a with
        capacity := { a.capacity with current := a.capacity.current + 1 },
        participants := a.participants ++ [⟨userId, now, "registered"⟩] },
      ?_, rfl, rfl, rfl, rfl⟩
    unfold addParticipant
    rw [if_neg h1, if_pos (rfl : ("registered" : String) = "registered")]
    unfold activitySave
    rw [if_neg (by simp only []; omega)]
  · intro hge
    refine ⟨{ a with
        capacity := { a.capacity with waitlist := a.capacity.waitlist + 1 },
        participants := a.participants ++ [⟨userId, now, "waitlisted"⟩] },
      ?_, rfl, rfl, rfl, rfl⟩
    unfold addParticipant
    rw [if_pos (And.intro hge (rfl : ("registered" : String) = "registered"))]
    unfold activitySave
    rw [if_neg (by simp only []; omega)]

/-- C5 witness for `addParticipant_spec`: registering user 12 on the full
`sampleActivity` succeeds as `waitlisted`. -/
theorem addParticipant_spec_witness :
    sampleActivity.capacity.current ≤ sampleActivity.capacity.max ∧
    sampleActivity.capacity.current ≥ sampleActivity.capacity.max ∧
    (∃ r, addParticipant sampleActivity 12 3 "registered" = .ok r ∧
      r.participants = sampleActivity.participants ++ [⟨12, 3, "waitlisted"⟩] ∧
      r.capacity.current = sampleActivity.capacity.current ∧
      r.capacity.waitlist = sampleActivity.capacity.waitlist + 1 ∧
      r.capacity.max = sampleActivity.capacity.max) :=
  ⟨by decide, by decide,
    (addParticipant_spec sampleActivity 12 3 (by decide)).2 (by decide)⟩

/-! C6. -/

/-- C6: when a `registered` participant unregisters from a chronologically
ordered participant list, the net `capacity.current` is unchanged whenever
a waitlisted participant exists and exactly the first waitlisted entry —
which has the least `registeredAt` among all waitlisted entries, i.e. FIFO
with no priority override — is promoted to `registered` while
`capacity.waitlist` drops by one; with no waitlisted participant only
`capacity.current` drops by one; and when a `waitlisted` participant
unregisters only `capacity.waitlist` drops by one. -/
theorem removeParticipant_spec (a : Activity) (userId : Nat) (p : Participant)
    (hfind : a.participants.find? (fun q => q.user = userId) = some p)
    (hmax : a.capacity.current ≤ a.capacity.max)
    (hsort : a.participants.Pairwise (fun x y => x.registeredAt ≤ y.registeredAt)) :
    (p.status = "registered" →
      ∀ w, a.participants.find? (fun q => q.status = "waitlisted") = some w →
        (∀ q ∈ a.participants, q.status = "waitlisted" →
          w.registeredAt ≤ q.registeredAt) ∧
        ∃ r, removeParticipant a userId = some (.ok r) ∧
          r.capacity.current = a.capacity.current ∧
          r.capacity.waitlist = a.capacity.waitlist - 1 ∧
          r.capacity.max = a.capacity.max ∧
          r.participants = (updateFirst (fun q => q.status = "waitlisted")
              (fun q => { q with status := "registered" })
              a.participants).filter (fun q => q.user ≠ userId)) ∧
    (p.status = "registered" →
      a.participants.find? (fun q => q.status = "waitlisted") = none →
      ∃ r, removeParticipant a userId = some (.ok r) ∧
        r.capacity.current = a.capacity.current - 1 ∧
        r.capacity.waitlist = a.capacity.waitlist ∧
        r.capacity.max = a.capacity.max ∧
        r.participants = a.participants.filter (fun q => q.user ≠ userId)) ∧
    (p.status = "waitlisted" →
      ∃ r, removeParticipant a userId = some (.ok r) ∧
        r.capacity.current = a.capacity.current ∧
        r.capacity.waitlist = a.capacity.waitlist - 1 ∧
        r.capacity.max = a.capacity.max ∧
        r.participants = a.participants.filter (fun q => q.user ≠ userId)) := by
  refine ⟨?_, ?_, ?_⟩
  · intro hreg w hw
    refine ⟨find?_first_min a.participants w hsort hw, ?_⟩
    have hpred := List.find?_some hw
    have hany : a.participants.any (fun q => q.status = "waitlisted") = true :=
      List.any_eq_true.mpr ⟨w, List.mem_of_find?_eq_some hw, hpred⟩
    refine ⟨{ capacity := { max := a.capacity.max,
                            current := a.capacity.current - 1 + 1,
                            waitlist := a.capacity.waitlist - 1 },
              participants := (updateFirst (fun q => q.status = "waitlisted")
                  (fun q => { q with status := "registered" })
                  a.participants).filter (fun q => q.user ≠ userId) },
            ?_, by dsimp only; omega, rfl, rfl, rfl⟩
    unfold removeParticipant
    rw [hfind]
    dsimp only
    rw [if_pos hreg, if_pos hany]
    unfold activitySave
    dsimp only
    rw [if_neg (by omega)]
  · intro hreg hnone
    have hany : a.participants.any (fun q => q.status = "waitlisted") = false := by
      rw [List.any_eq_false]
      intro q hq
      simpa using List.find?_eq_none.mp hnone q hq
    refine ⟨{ capacity := { max := a.capacity.max,
                            current := a.capacity.current - 1,
                            waitlist := a.capacity.waitlist },
              participants := a.participants.filter (fun q => q.user ≠ userId) },
            ?_, rfl, rfl, rfl, rfl⟩
    unfold removeParticipant
    rw [hfind]
    dsimp only
    rw [if_pos hreg, if_neg (by simp [hany])]
    unfold activitySave
    dsimp only
    rw [if_neg (by omega)]
  · intro hwl
    have hnr : p.status ≠ "registered" := by rw [hwl]; decide
    refine ⟨{ capacity := { max := a.capacity.max,
                            current := a.capacity.current,
                            waitlist := a.capacity.waitlist - 1 },
              participants := a.participants.filter (fun q => q.user ≠ userId) },
            ?_, rfl, rfl, rfl, rfl⟩
    unfold removeParticipant
    rw [hfind]
    dsimp only
    rw [if_neg hnr, if_pos hwl]
    unfold activitySave
    dsimp only
    rw [if_neg (by omega)]

/-- C6 witness for `removeParticipant_spec`: user 10 (registered)
unregisters from `sampleActivity`, promoting user 11 from the waitlist. -/
theorem removeParticipant_spec_witness :
    sampleActivity.participants.find? (fun q => q.user = 10)
      = some ⟨10, 1, "registered"⟩ ∧
    sampleActivity.capacity.current ≤ sampleActivity.capacity.max ∧
    sampleActivity.participants.find? (fun q => q.status = "waitlisted")
      = some ⟨11, 2, "waitlisted"⟩ ∧
    ((∀ q ∈ sampleActivity.participants, q.status = "waitlisted" →
        (⟨11, 2, "waitlisted"⟩ : Participant).registeredAt ≤ q.registeredAt) ∧
      ∃ r, removeParticipant sampleActivity 10 = some (.ok r) ∧
        r.capacity.current = sampleActivity.capacity.current ∧
        r.capacity.waitlist = sampleActivity.capacity.waitlist - 1 ∧
        r.capacity.max = sampleActivity.capacity.max ∧
        r.participants = (updateFirst (fun q => q.status = "waitlisted")
            (fun q => { q with status := "registered" })
            sampleActivity.participants).filter (fun q => q.user ≠ 10)) :=
  ⟨by decide, by decide, by decide,
    (removeParticipant_spec sampleActivity 10 ⟨10, 1, "registered"⟩
        (by decide) (by decide)
        (by decide)).1 rfl ⟨11, 2, "waitlisted"⟩ (by decide)⟩

/-! C9. -/

/-- C9: the register/unregister operations preserve the capacity
invariants — after `addParticipant` (as register invokes it) and after any
completed `removeParticipant`, `capacity.current` equals the number of
`registered` participants, `capacity.waitlist` equals the number of
`waitlisted` participants, and `capacity.current ≤ capacity.max`; in
particular the saves always succeed. -/
theorem registration_invariants (a : Activity) (userId now : Nat)
    (hinv : activityInv a)
    (hdup : (a.participants.filter (fun q => q.user = userId)).length ≤ 1) :
    (∃ r, addParticipant a userId now "registered" = .ok r ∧ activityInv r) ∧
    (∀ e, removeParticipant a userId = some e →
      ∃ r, e = .ok r ∧ activityInv r) := by
  obtain ⟨hcur, hwl, hle⟩ := hinv
  constructor
  · by_cases hfull : a.capacity.current ≥ a.capacity.max
    · have e1 : countStatus "registered"
          (a.participants ++ [⟨userId, now, "waitlisted"⟩])
            = countStatus "registered" a.participants := by
        rw [countStatus_append]; simp
      have e2 : countStatus "waitlisted"
          (a.participants ++ [⟨userId, now, "waitlisted"⟩])
            = countStatus "waitlisted" a.participants + 1 := by
        rw [countStatus_append]; simp
      refine ⟨{ a with
                  capacity := { a.capacity with waitlist := a.capacity.waitlist + 1 },
                  participants := a.participants ++ [⟨userId, now, "waitlisted"⟩] },
              ?_, ?_⟩
      · unfold addParticipant
        rw [if_pos (And.intro hfull rfl)]
        unfold activitySave
        dsimp only
        rw [if_neg (by omega)]
      · refine ⟨?_, ?_, ?_⟩ <;> dsimp only
        · rw [e1]; exact hcur
        · rw [e2]; push_cast; omega
        · exact hle
    · have e1 : countStatus "registered"
          (a.participants ++ [⟨userId, now, "registered"⟩])
            = countStatus "registered" a.participants + 1 := by
        rw [countStatus_append]; simp
      have e2 : countStatus "waitlisted"
          (a.participants ++ [⟨userId, now, "registered"⟩])
            = countStatus "waitlisted" a.participants := by
        rw [countStatus_append]; simp
      refine ⟨{ a with
                  capacity := { a.capacity with current := a.capacity.current + 1 },
                  participants := a.participants ++ [⟨userId, now, "registered"⟩] },
              ?_, ?_⟩
      · unfold addParticipant
        rw [if_neg (fun hc => absurd hc.1 hfull),
          if_pos (rfl : ("registered" : String) = "registered")]
        unfold activitySave
        dsimp only
        rw [if_neg (by omega)]
      · refine ⟨?_, ?_, ?_⟩ <;> dsimp only
        · rw [e1]; push_cast; omega
        · rw [e2]; exact hwl
        · omega
  · intro e he
    unfold removeParticipant at he
    cases hfind : a.participants.find? (fun q => q.user = userId) with
    | none => rw [hfind] at he; cases he
    | some p =>
      rw [hfind] at he
      dsimp only at he
      have hfU := filter_user_unique userId a.participants p hfind hdup
      have hmem := List.mem_of_find?_eq_some hfind
      have f1 := countStatus_filter_user "registered" userId a.participants
      have f2 := countStatus_filter_user "waitlisted" userId a.participants
      rw [hfU] at f1 f2
      by_cases hreg : p.status = "registered"
      · have e6 : countStatus "registered" [p] = 1 := by
          simp [countStatus, List.filter_cons, hreg]
        have e7 : countStatus "waitlisted" [p] = 0 := by
          simp [countStatus, List.filter_cons, hreg]
        have hrpos : 1 ≤ countStatus "registered" a.participants :=
          countStatus_pos _ _ p hmem hreg
        rw [if_pos hreg] at he
        by_cases hany : a.participants.any (fun q => q.status = "waitlisted") = true
        · rw [if_pos hany] at he
          injection he with he'
          subst he'
          have huser : ∀ q ∈ a.participants, q.status = "waitlisted" →
              q.user ≠ userId := by
            intro q hq hqs hqu
            have hqf : q ∈ a.participants.filter (fun z => z.user = userId) :=
              List.mem_filter.mpr ⟨hq, by simp [hqu]⟩
            rw [hfU] at hqf
            simp only [List.mem_singleton] at hqf
            subst hqf
            rw [hreg] at hqs
            exact absurd hqs (by decide)
          obtain ⟨e3, e4⟩ := countStatus_promote a.participants hany
          have hpf := promote_filter_user userId a.participants huser
          have g1 := countStatus_filter_user "registered" userId
            (updateFirst (fun q => q.status = "waitlisted")
              (fun q => { q with status := "registered" }) a.participants)
          have g2 := countStatus_filter_user "waitlisted" userId
            (updateFirst (fun q => q.status = "waitlisted")
              (fun q => { q with status := "registered" }) a.participants)
          rw [hpf, hfU] at g1 g2
          obtain ⟨w, hwmem, hwpred⟩ := List.any_eq_true.mp hany
          have hwpos : 1 ≤ countStatus "waitlisted" a.participants :=
            countStatus_pos _ _ w hwmem (of_decide_eq_true hwpred)
          unfold activitySave
          rw [if_neg (by dsimp only; omega)]
          refine ⟨_, rfl, ?_, ?_, ?_⟩ <;> dsimp only <;> omega
        · rw [if_neg hany] at he
          injection he with he'
          subst he'
          unfold activitySave
          rw [if_neg (by dsimp only; omega)]
          refine ⟨_, rfl, ?_, ?_, ?_⟩ <;> dsimp only <;> omega
      · have e6 : countStatus "registered" [p] = 0 := by
          simp [countStatus, List.filter_cons, hreg]
        rw [if_neg hreg] at he
        by_cases hwl2 : p.status = "waitlisted"
        · have e7 : countStatus "waitlisted" [p] = 1 := by
            simp [countStatus, List.filter_cons, hwl2]
          have hwpos : 1 ≤ countStatus "waitlisted" a.participants :=
            countStatus_pos _ _ p hmem hwl2
          rw [if_pos hwl2] at he
          injection he with he'
          subst he'
          unfold activitySave
          rw [if_neg (by dsimp only; omega)]
          refine ⟨_, rfl, ?_, ?_, ?_⟩ <;> dsimp only <;> omega
        · have e7 : countStatus "waitlisted" [p] = 0 := by
            simp [countStatus, List.filter_cons, hwl2]
          rw [if_neg hwl2] at he
          injection he with he'
          subst he'
          unfold activitySave
          rw [if_neg (by dsimp only; omega)]
          refine ⟨_, rfl, ?_, ?_, ?_⟩ <;> dsimp only <;> omega

/-- C9 witness for `registration_invariants`: `sampleActivity` satisfies the
invariants and user 10 appears once; both operations preserve them. -/
theorem registration_invariants_witness :
    activityInv sampleActivity ∧
    (sampleActivity.participants.filter (fun q => q.user = 10)).length ≤ 1 ∧
    ((∃ r, addParticipant sampleActivity 10 7 "registered" = .ok r ∧ activityInv r) ∧
      (∀ e, removeParticipant sampleActivity 10 = some e →
        ∃ r, e = .ok r ∧ activityInv r)) :=
  ⟨⟨by decide, by decide, by decide⟩, by decide,
    registration_invariants sampleActivity 10 7
      ⟨by decide, by decide, by decide⟩ (by decide)⟩

end PetAdoption
